import Mathlib

/-
  Verification of the streaming segment-extraction protocol and notebook-entry
  routing implemented in src/components/visualiser/VisualiserUI.tsx.

  Strings are modelled as `List Char` (JavaScript string indices are code-unit
  positions; all protocol text here is ASCII, where the two coincide).
-/

namespace Supalytics

/-- JS `hay.startsWith(needle)` on character lists: needle is an initial run of hay. -/
def startsWith : List Char → List Char → Bool
  | _, [] => true
  | [], _ :: _ => false
  | c :: cs, d :: ds => c == d && startsWith cs ds

/-- Helper for `indexOfFrom`: first position at or after accumulator `i` where
`needle` occurs in `hay`. -/
def indexOfAux : List Char → List Char → Nat → Option Nat
  | [], needle, i => if startsWith [] needle then some i else none
  | c :: t, needle, i =>
    if startsWith (c :: t) needle then some i else indexOfAux t needle (i + 1)

/-- JS `hay.indexOf(needle, start)`: index of the first occurrence of `needle`
at or after position `start`, or `none` where the source returns `-1`. -/
def indexOfFrom (hay needle : List Char) (start : Nat) : Option Nat :=
  (indexOfAux (hay.drop start) needle 0).map (fun i => i + start)

/-- JS whitespace test used by `String.prototype.trim` (ASCII subset). -/
def isJsWhitespace (c : Char) : Bool :=
  c == ' ' || c == '\n' || c == '\t' || c == '\r'

/-- JS `s.trim()`: strip leading and trailing whitespace. -/
def jsTrim (s : List Char) : List Char :=
  ((s.dropWhile isJsWhitespace).reverse.dropWhile isJsWhitespace).reverse

/-- JS `s.toUpperCase()` (ASCII). -/
def upperStr (s : List Char) : List Char := s.map Char.toUpper

/-- JS `s.toLowerCase()` (ASCII). -/
def lowerStr (s : List Char) : List Char := s.map Char.toLower

/-- The `Section` interface of VisualiserUI.tsx (lines 17-20): a typed unit of
content extracted from the stream. The `type` field holds the lower-cased type
token. -/
structure Section where
  type : List Char
  content : List Char
  deriving DecidableEq, Repr

/-- Modelled from the spec: the `OutputType` enumeration is declared in
`lib/global.types`, which is not among the provided sources. Spec sections 3
and 6 enumerate its values as the strings `sql`, `text`, `table`, `chart`, in
that order. -/
def outputTypeValues : List (List Char) :=
  ["sql".data, "text".data, "table".data, "chart".data]

/-- Modelled from the spec: the `OutputType.SQL` enumeration value compared
against a routed segment's type (VisualiserUI.tsx line 233); per spec sections
3 and 6 its string is `sql`. -/
def OutputType.SQL : List Char := "sql".data

/-- The repeated `=====` marker punctuation. -/
def eqs : List Char := "=====".data

/-- Start marker built in extractSection (line 291): `=====<TYPE>=====` with the
type token upper-cased. -/
def startMarkerOf (ty : List Char) : List Char := eqs ++ upperStr ty ++ eqs

/-- End marker built in extractSection (line 292): `=====END <TYPE>=====` with
the type token upper-cased. -/
def endMarkerOf (ty : List Char) : List Char := eqs ++ "END ".data ++ upperStr ty ++ eqs

/-- The `for (const type of allTypes)` loop body of extractSection
(lines 289-314): try each type token in turn; on the first type whose start
marker occurs and whose end marker occurs after the content start, return the
trimmed interior with the lower-cased token; a type missing either marker is
skipped (`continue`). -/
def extractGo (text : List Char) : List (List Char) → Option Section
  | [] => none
  | ty :: rest =>
    match indexOfFrom text (startMarkerOf ty) 0 with
    | none => extractGo text rest
    | some startIndex =>
      match indexOfFrom text (endMarkerOf ty) (startIndex + (startMarkerOf ty).length) with
      | none => extractGo text rest
      | some endIndex =>
        some { type := lowerStr ty,
               content := jsTrim ((text.drop (startIndex + (startMarkerOf ty).length)).take
                 (endIndex - (startIndex + (startMarkerOf ty).length))) }

/-- extractSection (lines 286-317) generalised over the enumeration values:
`allTypes = Object.values(OutputType).map(t => t.toUpperCase())` then the scan
loop. -/
def extractSectionWith (values : List (List Char)) (text : List Char) : Option Section :=
  extractGo text (values.map upperStr)

/-- extractSection as called by sendMessage, with the modelled `OutputType`
enumeration. -/
def extractSection (text : List Char) : Option Section :=
  extractSectionWith outputTypeValues text

/-- A chunk of an output: `{ content, type }` as pushed at lines 239-242. -/
structure Chunk where
  content : List Char
  type : List Char
  deriving DecidableEq, Repr

/-- An output version: `{ version, chunks }` as pushed at lines 221-224. -/
structure Output where
  version : Nat
  chunks : List Chunk
  deriving DecidableEq, Repr

/-- The NotebookEntry record (lines 148-155). -/
structure NotebookEntry where
  id : List Char
  createdAt : List Char
  notebookId : List Char
  userPrompt : List Char
  sqlQueries : List (List Char)
  outputs : List Output
  deriving DecidableEq, Repr

/-- Lines 220-224: if the entry has no outputs yet, push `{version: 1, chunks: []}`.
This runs at the top of every read-loop iteration, before extraction. -/
def ensureOutput (e : NotebookEntry) : NotebookEntry :=
  match e.outputs with
  | [] => { e with outputs := [⟨1, []⟩] }
  | _ :: _ => e

/-- Append a chunk to the last output of the list (`latestOutput.chunks.push`,
line 239, where `latestOutput` is the last element of `outputs`). -/
def pushChunk : List Output → Chunk → List Output
  | [], _ => []
  | o :: rest, c =>
    match rest with
    | [] => [{ o with chunks := o.chunks ++ [c] }]
    | r :: rs => o :: pushChunk (r :: rs) c

/-- One iteration of the read loop (lines 206-248) applied to the in-progress
entry: decode the read in isolation, ensure the version-1 output exists, run
extractSection on this read's text alone, and route the section (sql content to
`sqlQueries`, otherwise a chunk whose content falls back to the whole raw
message when the section content is the empty string, per
`section?.content || message`). -/
def processRead (e : NotebookEntry) (m : List Char) : NotebookEntry :=
  match extractSection m with
  | none => ensureOutput e
  | some s =>
    if s.type = OutputType.SQL then
      { ensureOutput e with sqlQueries := (ensureOutput e).sqlQueries ++ [s.content] }
    else
      { ensureOutput e with
        outputs := pushChunk (ensureOutput e).outputs
          ⟨(if s.content = [] then m else s.content), s.type⟩ }

/-- The whole read loop of sendMessage: fold `processRead` over the sequence of
decoded reads delivered by the stream. -/
def readLoop (e : NotebookEntry) (reads : List (List Char)) : NotebookEntry :=
  reads.foldl processRead e

/-- The sql value routed by one read, if any (lines 230-236). -/
def routedSql (m : List Char) : Option (List Char) :=
  match extractSection m with
  | none => none
  | some s => if s.type = OutputType.SQL then some s.content else none

/-- The chunk routed by one read, if any (lines 230-243), including the
`section?.content || message` fallback for an empty-string content. -/
def routedChunk (m : List Char) : Option Chunk :=
  match extractSection m with
  | none => none
  | some s =>
    if s.type = OutputType.SQL then none
    else some ⟨(if s.content = [] then m else s.content), s.type⟩

/-- All chunks of a list of outputs, in order. -/
def outChunks (outs : List Output) : List Chunk := (outs.map Output.chunks).flatten

/-- All chunks of an entry's outputs, in order. -/
def allChunks (e : NotebookEntry) : List Chunk := outChunks e.outputs

/-- Control flow of sendMessage around the read loop (lines 147-200): the new
entry is appended to the visible list; a failed entry insert (lines 159-167)
notifies and rolls the list back with `slice(0, -1)`; a non-ok response
(lines 185-191) or a null body (lines 195-200) notifies and returns with the
entry still in the list; otherwise the read loop runs on the new entry. The
returned Bool records whether a failure notification was shown up to the end
of streaming. -/
def sendMessagePhase (prior : List NotebookEntry) (newEntry : NotebookEntry)
    (insertOk responseOk bodyOk : Bool) (reads : List (List Char)) :
    List NotebookEntry × Bool :=
  if insertOk then
    if responseOk then
      if bodyOk then (prior ++ [readLoop newEntry reads], false)
      else (prior ++ [newEntry], true)
    else (prior ++ [newEntry], true)
  else ((prior ++ [newEntry]).dropLast, true)

/-- Whether `text` contains, for type token `ty`, a start marker followed by an
end marker at or after the content start (the success condition of one
iteration of extractSection's loop). -/
def hasCompletePair (text ty : List Char) : Bool :=
  match indexOfFrom text (startMarkerOf ty) 0 with
  | none => false
  | some si => (indexOfFrom text (endMarkerOf ty) (si + (startMarkerOf ty).length)).isSome

/-- The entry constructed at lines 148-155, with inert metadata fields blank. -/
def initEntry : NotebookEntry := ⟨[], [], [], [], [], []⟩

/-- First chunk of the spec's split-marker reassembly test. -/
def chunkA : List Char := "=====SQL==".data

/-- Second chunk of the spec's split-marker reassembly test. -/
def chunkB : List Char := "===select 1=====END SQL=====".data

/-- A complete sql segment in a single read. -/
def rSql : List Char := "=====SQL=====select 1=====END SQL=====".data

/-- One read carrying two complete sql segments. -/
def twoSqlRead : List Char :=
  "=====SQL=====a=====END SQL==========SQL=====b=====END SQL=====".data

/-- One read in which the sql start marker is present without its end marker,
followed by a complete text segment. -/
def mixedRead : List Char :=
  "=====SQL=====select 1=====TEXT=====hi=====END TEXT=====".data

/-- A well-formed segment whose type tokens are spelt in lower case. -/
def lcSqlRead : List Char := "=====sql=====select 1=====end sql=====".data

/-- A complete text segment with content `one`. -/
def tOneRead : List Char := "=====TEXT=====one=====END TEXT=====".data

/-- A complete text segment with content `two`. -/
def tTwoRead : List Char := "=====TEXT=====two=====END TEXT=====".data

/-- A stream tail with a start marker and content but no end marker. -/
def trailingRead : List Char := "=====TEXT=====hello".data

/-! Helper lemmas about the read-loop state transitions. -/

theorem ensureOutput_sqlQueries (e : NotebookEntry) :
    (ensureOutput e).sqlQueries = e.sqlQueries := by
  unfold ensureOutput
  rcases he : e.outputs with _ | ⟨o, os⟩ <;> rfl

theorem ensureOutput_outChunks (e : NotebookEntry) :
    outChunks (ensureOutput e).outputs = outChunks e.outputs := by
  unfold ensureOutput
  rcases he : e.outputs with _ | ⟨o, os⟩ <;> simp [outChunks, he]

theorem ensureOutput_outputs_ne_nil (e : NotebookEntry) :
    (ensureOutput e).outputs.length ≥ 1 := by
  unfold ensureOutput
  rcases he : e.outputs with _ | ⟨o, os⟩ <;> simp [he]

theorem pushChunk_length (outs : List Output) (c : Chunk) :
    (pushChunk outs c).length = outs.length := by
  induction outs with
  | nil => rfl
  | cons o rest ih =>
    cases rest with
    | nil => rfl
    | cons r rs => simpa [pushChunk] using ih

theorem outChunks_pushChunk (outs : List Output) (c : Chunk) (h : outs.length ≥ 1) :
    outChunks (pushChunk outs c) = outChunks outs ++ [c] := by
  induction outs with
  | nil => simp at h
  | cons o rest ih =>
    cases rest with
    | nil => simp [pushChunk, outChunks]
    | cons r rs =>
      have hr : (r :: rs : List Output).length ≥ 1 := by simp
      have ih2 := ih hr
      have hp : pushChunk (o :: r :: rs) c = o :: pushChunk (r :: rs) c := rfl
      rw [hp]
      simp only [outChunks, List.map_cons, List.flatten_cons] at ih2 ⊢
      rw [ih2]
      simp [List.append_assoc]

theorem processRead_sqlQueries (e : NotebookEntry) (m : List Char) :
    (processRead e m).sqlQueries = e.sqlQueries ++ (routedSql m).toList := by
  unfold processRead routedSql
  cases hx : extractSection m with
  | none => simp [ensureOutput_sqlQueries]
  | some s =>
    by_cases hty : s.type = OutputType.SQL
    · simp [hty, ensureOutput_sqlQueries]
    · simp [hty, ensureOutput_sqlQueries]

theorem processRead_allChunks (e : NotebookEntry) (m : List Char) :
    allChunks (processRead e m) = allChunks e ++ (routedChunk m).toList := by
  unfold processRead routedChunk allChunks
  cases hx : extractSection m with
  | none => simp [ensureOutput_outChunks]
  | some s =>
    by_cases hty : s.type = OutputType.SQL
    · simp [hty, ensureOutput_outChunks]
    · simp only [hty, if_false, Option.toList_some]
      rw [outChunks_pushChunk _ _ (ensureOutput_outputs_ne_nil e), ensureOutput_outChunks]

theorem processRead_outputs_ne_nil (e : NotebookEntry) (m : List Char) :
    (processRead e m).outputs.length ≥ 1 := by
  unfold processRead
  cases hx : extractSection m with
  | none => exact ensureOutput_outputs_ne_nil e
  | some s =>
    by_cases hty : s.type = OutputType.SQL
    · simpa [hty] using ensureOutput_outputs_ne_nil e
    · simp only [hty, if_false]
      calc 1 ≤ (ensureOutput e).outputs.length := ensureOutput_outputs_ne_nil e
        _ = _ := (pushChunk_length _ _).symm

theorem readLoop_sqlQueries :
    ∀ (reads : List (List Char)) (e : NotebookEntry),
      (readLoop e reads).sqlQueries = e.sqlQueries ++ reads.filterMap routedSql := by
  intro reads
  induction reads with
  | nil => intro e; simp [readLoop]
  | cons m rest ih =>
    intro e
    show (readLoop (processRead e m) rest).sqlQueries = _
    rw [ih, processRead_sqlQueries]
    cases h : routedSql m <;> simp [List.filterMap_cons, h, List.append_assoc]

theorem readLoop_allChunks :
    ∀ (reads : List (List Char)) (e : NotebookEntry),
      allChunks (readLoop e reads) = allChunks e ++ reads.filterMap routedChunk := by
  intro reads
  induction reads with
  | nil => intro e; simp [readLoop]
  | cons m rest ih =>
    intro e
    show allChunks (readLoop (processRead e m) rest) = _
    rw [ih, processRead_allChunks]
    cases h : routedChunk m <;> simp [List.filterMap_cons, h, List.append_assoc]

theorem readLoop_outputs_ne_nil :
    ∀ (reads : List (List Char)) (e : NotebookEntry), e.outputs.length ≥ 1 →
      (readLoop e reads).outputs.length ≥ 1 := by
  intro reads
  induction reads with
  | nil => intro e h; exact h
  | cons m rest ih =>
    intro e _
    show (readLoop (processRead e m) rest).outputs.length ≥ 1
    exact ih _ (processRead_outputs_ne_nil e m)

theorem routedSql_of_some (m : List Char) (q : List Char) :
    routedSql m = some q →
      ∃ s, extractSection m = some s ∧ s.type = OutputType.SQL ∧ q = s.content := by
  unfold routedSql
  cases hx : extractSection m with
  | none => intro h; cases h
  | some s =>
    by_cases hty : s.type = OutputType.SQL
    · simp only [hty, if_true]
      intro h
      cases h
      exact ⟨s, rfl, hty, rfl⟩
    · simp [hty]

theorem routedChunk_of_some (m : List Char) (c : Chunk) :
    routedChunk m = some c →
      ∃ s, extractSection m = some s ∧ (s.type = OutputType.SQL → False) ∧ c.type = s.type := by
  unfold routedChunk
  cases hx : extractSection m with
  | none => intro h; cases h
  | some s =>
    by_cases hty : s.type = OutputType.SQL
    · simp [hty]
    · simp only [hty, if_false]
      intro h
      cases h
      exact ⟨s, rfl, fun hc => hty hc, rfl⟩

theorem extractGo_type_mem :
    ∀ (tys : List (List Char)) (text : List Char) (s : Section),
      extractGo text tys = some s → ∃ ty ∈ tys, s.type = lowerStr ty := by
  intro tys
  induction tys with
  | nil => intro text s h; cases h
  | cons ty rest ih =>
    intro text s h
    simp only [extractGo] at h
    split at h
    · obtain ⟨ty', hm, hty⟩ := ih text s h
      exact ⟨ty', List.mem_cons_of_mem _ hm, hty⟩
    · split at h
      · obtain ⟨ty', hm, hty⟩ := ih text s h
        exact ⟨ty', List.mem_cons_of_mem _ hm, hty⟩
      · cases h
        exact ⟨ty, List.mem_cons_self _ _, rfl⟩

theorem extractGo_cons_false (text ty : List Char) (rest : List (List Char))
    (h : hasCompletePair text ty = false) :
    extractGo text (ty :: rest) = extractGo text rest := by
  simp only [extractGo]
  split
  · rfl
  · rename_i si hs
    split
    · rfl
    · rename_i ei he
      unfold hasCompletePair at h
      simp only [hs, he] at h
      simp at h

theorem extractGo_cons_true (text ty : List Char) (rest : List (List Char))
    (h : hasCompletePair text ty = true) :
    ∃ s, extractGo text (ty :: rest) = some s := by
  unfold hasCompletePair at h
  simp only [extractGo]
  split
  · rename_i hs
    simp only [hs] at h
    simp at h
  · rename_i si hs
    split
    · rename_i he
      simp only [hs, he] at h
      simp at h
    · exact ⟨_, rfl⟩

theorem extractGo_eq_none_iff :
    ∀ (tys : List (List Char)) (text : List Char),
      extractGo text tys = none ↔ ∀ ty ∈ tys, hasCompletePair text ty = false := by
  intro tys
  induction tys with
  | nil => intro text; simp [extractGo]
  | cons ty rest ih =>
    intro text
    rw [List.forall_mem_cons]
    cases hcp : hasCompletePair text ty with
    | false =>
      rw [extractGo_cons_false text ty rest hcp, ih text]
      simp
    | true =>
      obtain ⟨s, hs⟩ := extractGo_cons_true text ty rest hcp
      rw [hs]
      simp

theorem routed_at_most_one (m : List Char) :
    (routedSql m).toList.length + (routedChunk m).toList.length ≤ 1 := by
  unfold routedSql routedChunk
  cases hx : extractSection m with
  | none => simp
  | some s =>
    by_cases hty : s.type = OutputType.SQL <;> simp [hty]

theorem readLoop_append (e : NotebookEntry) (r1 r2 : List (List Char)) :
    readLoop e (r1 ++ r2) = readLoop (readLoop e r1) r2 := by
  simp [readLoop, List.foldl_append]

/-! Claim theorems. -/

/-- Claim C1, counterexample: feeding the chunk `=====SQL==` followed by
`===select 1=====END SQL=====` does not yield a sql segment with content
`select 1`; the read loop decodes each read in isolation, so `sqlQueries`
stays empty. -/
theorem noBuffer_counterexample :
    (readLoop initEntry [chunkA, chunkB]).sqlQueries = []
    ∧ decide ((readLoop initEntry [chunkA, chunkB]).sqlQueries = ["select 1".data]) = false := by
  decide

/-- Claim C1, amended: data from a read that ends mid-marker or mid-content is
discarded, not retained; each read is decoded and scanned in isolation, so a
segment whose delimiters straddle two reads is never extracted. Feeding
`=====SQL==` then `===select 1=====END SQL=====` yields no sql segment and no
chunk, while the same bytes delivered in a single read yield the segment
`select 1`. -/
theorem per_read_isolation :
    (readLoop initEntry [chunkA, chunkB]).sqlQueries = []
    ∧ allChunks (readLoop initEntry [chunkA, chunkB]) = []
    ∧ (readLoop initEntry [chunkA ++ chunkB]).sqlQueries = ["select 1".data] := by
  decide

/-- Claim C2, counterexample: a single read carrying two complete sql segments
(contents `a` and `b`) routes only the first; the claim's prediction that both
are emitted in that step is false. -/
theorem multi_segment_counterexample :
    (readLoop initEntry [twoSqlRead]).sqlQueries = ["a".data]
    ∧ decide ((readLoop initEntry [twoSqlRead]).sqlQueries = ["a".data, "b".data]) = false := by
  decide

/-- Claim C2, amended: one extraction step emits at most one segment per read,
namely the first complete one in enumeration order; the consumed span is not
removed, the scan is not repeated, and any further complete segments in the
same read are discarded. On the two-sql read only `a` is routed, and in general
one `processRead` grows the entry by at most one routed item. -/
theorem at_most_one_segment_per_read :
    (readLoop initEntry [twoSqlRead]).sqlQueries = ["a".data]
    ∧ allChunks (readLoop initEntry [twoSqlRead]) = []
    ∧ ∀ (e : NotebookEntry) (m : List Char),
        (processRead e m).sqlQueries.length + (allChunks (processRead e m)).length
          ≤ e.sqlQueries.length + (allChunks e).length + 1 := by
  refine ⟨by decide, by decide, ?_⟩
  intro e m
  rw [processRead_sqlQueries, processRead_allChunks]
  simp only [List.length_append]
  have := routed_at_most_one m
  omega

/-- Claim C3, counterexample: in a buffer where the sql start marker is present
(at index 0) with no sql end marker, the scan does not stop: the
later-enumerated text type, whose markers are both present, is extracted in
the same pass. -/
theorem pending_start_counterexample :
    indexOfFrom mixedRead (startMarkerOf "sql".data) 0 = some 0
    ∧ indexOfFrom mixedRead (endMarkerOf "sql".data) (0 + (startMarkerOf "sql".data).length) = none
    ∧ extractSection mixedRead = some ⟨"text".data, "hi".data⟩
    ∧ decide (extractSection mixedRead = none) = false := by
  decide

/-- Claim C3, amended: when a type's start marker is present but its end marker
has not arrived, the scan skips that type (`continue`) and proceeds to
later-enumerated types; a later type whose start and end markers are both
present is extracted and routed in that same scan pass. -/
theorem scan_continues_past_pending_type :
    extractSection mixedRead = some ⟨"text".data, "hi".data⟩
    ∧ (readLoop initEntry [mixedRead]).sqlQueries = []
    ∧ allChunks (readLoop initEntry [mixedRead]) = [⟨"hi".data, "text".data⟩] := by
  decide

/-- Claim C4, counterexample: a well-formed marker pair whose type token is
spelt in lower case (`=====sql=====select 1=====end sql=====`) is not
recognized; extraction returns nothing. -/
theorem lowercase_marker_counterexample :
    (extractSection lcSqlRead).isSome = false := by
  decide

/-- Claim C4, amended: matching of the input text against the markers is
case-sensitive; only the exact upper-cased spelling of the type token (as the
markers are built from the upper-cased enumeration value) is matched, so the
lower-case spelling yields no segment while the upper-case spelling of the same
segment is extracted. -/
theorem marker_matching_case_sensitive :
    extractSection lcSqlRead = none
    ∧ extractSection rSql = some ⟨"sql".data, "select 1".data⟩ := by
  decide

/-- Claim C5, counterexample: a streaming session whose only segment is
sql-typed leaves `outputs` equal to `[{version := 1, chunks := []}]`, which is
non-empty even though no non-sql segment was routed, contradicting the claimed
equivalence. -/
theorem outputs_eager_counterexample :
    (readLoop initEntry [rSql]).outputs = [⟨1, []⟩]
    ∧ (readLoop initEntry [rSql]).sqlQueries = ["select 1".data]
    ∧ allChunks (readLoop initEntry [rSql]) = []
    ∧ decide ((readLoop initEntry [rSql]).outputs = []) = false := by
  decide

/-- Claim C5, amended: the single Output (version 1) is created eagerly at the
top of the first read-loop iteration, regardless of what the read contains;
`outputs` is non-empty if and only if at least one read was processed. A stream
that closes with zero bytes leaves `outputs = []`, but an all-sql stream leaves
`outputs = [{version := 1, chunks := []}]`. -/
theorem output_created_on_first_read :
    (readLoop initEntry []).outputs = []
    ∧ (readLoop initEntry [rSql]).outputs = [⟨1, []⟩]
    ∧ ∀ (e : NotebookEntry) (m : List Char) (reads : List (List Char)),
        (readLoop e (m :: reads)).outputs.length ≥ 1 := by
  refine ⟨by decide, by decide, ?_⟩
  intro e m reads
  show (readLoop (processRead e m) reads).outputs.length ≥ 1
  exact readLoop_outputs_ne_nil reads _ (processRead_outputs_ne_nil e m)

/-- Claim C6, counterexample: when persisting the entry succeeds but opening
the response stream fails (non-ok response) before any segment was applied, the
in-memory entry is not removed from the visible list: the list still holds the
new entry, although the failure notice is shown. -/
theorem stream_open_failure_counterexample :
    (sendMessagePhase [] initEntry true false true []).1 = [initEntry]
    ∧ (sendMessagePhase [] initEntry true false true []).2 = true
    ∧ decide ((sendMessagePhase [] initEntry true false true []).1 = []) = false := by
  decide

/-- Claim C6, amended: only a persistence failure (the entry insert) rolls the
in-memory entry back out of the visible list; a transport failure when opening
the response stream (non-ok status or missing body) surfaces a failure notice
but leaves the just-created entry visible; once streaming starts no rollback
ever occurs, so any later failure leaves the partially-built entry visible
as-is. -/
theorem rollback_only_on_insert_failure :
    ∀ (prior : List NotebookEntry) (newEntry : NotebookEntry)
      (reads : List (List Char)) (b c : Bool),
      sendMessagePhase prior newEntry false b c reads = (prior, true)
      ∧ sendMessagePhase prior newEntry true false c reads = (prior ++ [newEntry], true)
      ∧ sendMessagePhase prior newEntry true true false reads = (prior ++ [newEntry], true)
      ∧ sendMessagePhase prior newEntry true true true reads
          = (prior ++ [readLoop newEntry reads], false) := by
  intro prior newEntry reads b c
  refine ⟨?_, by simp [sendMessagePhase], by simp [sendMessagePhase], by simp [sendMessagePhase]⟩
  simp [sendMessagePhase]

/-- Claim C7: over any streaming session the routing is exact: `sqlQueries`
grows by precisely the contents of the sql-typed sections extracted from the
reads, the output chunks grow by precisely one chunk per non-sql section, every
routed sql value comes from a section whose type is `sql`, and every routed
chunk comes from a section whose type is not `sql` and carries that section's
type. Hence a sql segment's content is never appended to the outputs and a
non-sql segment's content is never appended to `sqlQueries`. -/
theorem type_routing :
    ∀ (e : NotebookEntry) (reads : List (List Char)),
      (readLoop e reads).sqlQueries = e.sqlQueries ++ reads.filterMap routedSql
      ∧ allChunks (readLoop e reads) = allChunks e ++ reads.filterMap routedChunk
      ∧ (∀ (m q : List Char), routedSql m = some q →
          ∃ s, extractSection m = some s ∧ s.type = OutputType.SQL ∧ q = s.content)
      ∧ (∀ (m : List Char) (c : Chunk), routedChunk m = some c →
          ∃ s, extractSection m = some s ∧ (s.type = OutputType.SQL → False) ∧ c.type = s.type) := by
  intro e reads
  exact ⟨readLoop_sqlQueries reads e, readLoop_allChunks reads e,
    fun m q => routedSql_of_some m q, fun m c => routedChunk_of_some m c⟩

/-- Claim C7, witness: the routed sql value of the single-read session
`=====SQL=====select 1=====END SQL=====` comes from a sql-typed section. -/
theorem type_routing_witness :
    ∃ s, extractSection rSql = some s ∧ s.type = OutputType.SQL ∧ "select 1".data = s.content :=
  (type_routing initEntry []).2.2.1 rSql ("select 1".data) (by decide)

/-- Claim C8: the entry is append-only and monotonic during one streaming
session: extending the sequence of reads only appends to `sqlQueries` and to
the chunk sequence, never removing or reordering what was already there; and
two complete text segments fed in two separate reads appear as two chunks in
that same relative order within the single version-1 Output. -/
theorem entry_append_only :
    (∀ (e : NotebookEntry) (r1 r2 : List (List Char)),
      ∃ qs cs, (readLoop e (r1 ++ r2)).sqlQueries = (readLoop e r1).sqlQueries ++ qs
        ∧ allChunks (readLoop e (r1 ++ r2)) = allChunks (readLoop e r1) ++ cs)
    ∧ readLoop initEntry [tOneRead, tTwoRead]
        = ⟨[], [], [], [], [],
            [⟨1, [⟨"one".data, "text".data⟩, ⟨"two".data, "text".data⟩]⟩]⟩ := by
  constructor
  · intro e r1 r2
    refine ⟨r2.filterMap routedSql, r2.filterMap routedChunk, ?_, ?_⟩
    · rw [readLoop_append]
      exact readLoop_sqlQueries r2 (readLoop e r1)
    · rw [readLoop_append]
      exact readLoop_allChunks r2 (readLoop e r1)
  · decide

/-- Claim C9: extraction is a total function that never throws: it returns
`none` exactly when no type token has a complete start/end marker pair in the
text (malformed or unmatched markers simply produce no Section), and the
trailing partial `=====TEXT=====hello` yields no segment and no error. -/
theorem extraction_total_no_throw :
    (∀ text : List Char, extractSection text = none ↔
        ∀ ty ∈ outputTypeValues.map upperStr, hasCompletePair text ty = false)
    ∧ extractSection trailingRead = none := by
  constructor
  · intro text
    exact extractGo_eq_none_iff (outputTypeValues.map upperStr) text
  · decide

/-- Claim C9, witness: the characterization applied to the concrete trailing
partial read, discharging the no-complete-pair condition by evaluation. -/
theorem extraction_total_no_throw_witness :
    extractSection trailingRead = none :=
  (extraction_total_no_throw.1 trailingRead).mpr (by decide)

/-- Claim C10: whenever extraction succeeds, the returned Section's type field
is the lower-cased form of the upper-cased spelling of some declared
enumeration value (the markers are built from the upper-cased form); with a
declared value `Text` that is not entirely lowercase, the matched segment's
type field is `text`, which differs from the declared value. -/
theorem returned_type_lowercased :
    (∀ (values : List (List Char)) (text : List Char) (s : Section),
        extractSectionWith values text = some s →
          ∃ v ∈ values, s.type = lowerStr (upperStr v))
    ∧ extractSectionWith ["Text".data] tOneRead = some ⟨"text".data, "one".data⟩
    ∧ lowerStr (upperStr "Text".data) = "text".data
    ∧ decide (("text".data : List Char) = "Text".data) = false := by
  refine ⟨?_, by decide, by decide, by decide⟩
  intro values text s h
  obtain ⟨ty, hm, hty⟩ := extractGo_type_mem (values.map upperStr) text s h
  obtain ⟨v, hv, rfl⟩ := List.mem_map.mp hm
  exact ⟨v, hv, hty⟩

/-- Claim C10, witness: the general statement applied to the enumeration
`[sql]` and the concrete sql read, with the extraction hypothesis discharged by
evaluation. -/
theorem returned_type_lowercased_witness :
    ∃ v ∈ (["sql".data] : List (List Char)),
      (Section.mk "sql".data "select 1".data).type = lowerStr (upperStr v) :=
  returned_type_lowercased.1 ["sql".data] rSql ⟨"sql".data, "select 1".data⟩ (by decide)

end Supalytics
